import Mathlib

/-!
Verification of the ButtonDebounce library (three interchangeable
debouncing engines: Integrator, Consecutive, EdgeGated) against its
specification.  The C++ state is shallowly embedded: `uint8_t` values
become `Nat` with an explicit `% 256` wherever the source truncates,
booleans become `Bool`, and each engine's `reset`/`update`/`history`
member functions become pure Lean functions on a per-engine state
record (the source keeps the engine states in a union; each build
compiles exactly one engine, so the three engines are modelled as three
separate state types).
-/

namespace ButtonDebounce

/-- Per-instance configuration, `ButtonDebounce::Config` in the header.
Every field is a `uint8_t` in the source; each is modelled as `Nat`,
with the header's default values. -/
structure Config where
  integ_max : Nat := 6
  integ_on : Nat := 4
  integ_off : Nat := 2
  consec_n : Nat := 3
  edge_threshold : Nat := 4
  unstable_timeout : Nat := 16
  bounce_confirm : Nat := 1
deriving DecidableEq, Repr

/-- Population count of an 8-bit value, `popcount8` from the header,
by the same two-bit/four-bit ladder the source uses (each intermediate
line is cast back to `uint8_t`, hence the `% 256`). -/
def popcount8 (x : Nat) : Nat :=
  let x1 := ((x &&& 0x55) + ((x >>> 1) &&& 0x55)) % 256
  let x2 := ((x1 &&& 0x33) + ((x1 >>> 2) &&& 0x33)) % 256
  (x2 + (x2 >>> 4)) &&& 0x0F

/-- Number of bit-level transitions between adjacent samples in the
8-bit window, `edgeCount8` from the header:
`popcount8 (hist ^ (hist >> 1))`, the xor cast to `uint8_t`. -/
def edgeCount8 (hist : Nat) : Nat :=
  popcount8 ((hist ^^^ (hist >>> 1)) % 256)

/-- Shift-register update, the static `update_hist` helper of the
Consecutive and EdgeGated translation units: shift left one place,
insert the new raw sample as bit 0, truncate to `uint8_t`. -/
def updateHist (h : Nat) (raw_down : Bool) : Nat :=
  ((h <<< 1) ||| (if raw_down then 1 else 0)) % 256

/-- Acceptance mask `(n >= 8u) ? 0xFFu : (uint8_t)((1u << n) - 1u)`
computed inside the Consecutive and EdgeGated update routines. -/
def mask (n : Nat) : Nat :=
  if 8 ≤ n then 0xFF else (1 <<< n) - 1

namespace Integrator

/-- Facade state of the Integrator build: the shared fields `state_`,
`pressed_`, `released_` and the engine's accumulator `acc`. -/
structure State where
  state : Bool
  pressed : Bool
  released : Bool
  acc : Nat
deriving DecidableEq, Repr

/-- Reset of the Integrator build, `ButtonDebounce::reset`: the level
is forced to `start_down`, the one-shot flags cleared, and the
accumulator snapped to the matching rail. -/
def reset (cfg : Config) (start_down : Bool) : State :=
  { state := start_down, pressed := false, released := false,
    acc := if start_down then cfg.integ_max else 0 }

/-- Constructor `ButtonDebounce(cfg)`: it calls `reset(false)`. -/
def init (cfg : Config) : State :=
  reset cfg false

/-- One tick of the Integrator build, `ButtonDebounce::update`:
saturating accumulator step, then the hysteresis thresholds. -/
def update (cfg : Config) (raw_down : Bool) (s : State) : State :=
  let acc :=
    if raw_down then (if s.acc < cfg.integ_max then s.acc + 1 else s.acc)
    else (if 0 < s.acc then s.acc - 1 else s.acc)
  if s.state = false ∧ cfg.integ_on ≤ acc then
    { state := true, pressed := true, released := false, acc := acc }
  else if s.state = true ∧ acc ≤ cfg.integ_off then
    { state := false, pressed := false, released := true, acc := acc }
  else
    { state := s.state, pressed := false, released := false, acc := acc }

/-- History accessor of the Integrator build: constant 0, this engine
carries no sample history. -/
def history (_ : State) : Nat := 0

/-- Debounced level accessor `down()`. -/
def down (s : State) : Bool := s.state

/-- Debounced level accessor `up()`, the negation of `down()`. -/
def up (s : State) : Bool := !s.state

end Integrator

namespace Consecutive

/-- Facade state of the Consecutive build: the shared fields plus the
`HistoryState` members (`hist`, `unstable`, `bounce_k`; the last two
exist in the union but the Consecutive engine never changes them after
reset). -/
structure State where
  state : Bool
  pressed : Bool
  released : Bool
  hist : Nat
  unstable : Nat
  bounce_k : Nat
deriving DecidableEq, Repr

/-- Reset of the Consecutive build: level forced, flags cleared,
history snapped to the all-ones or all-zeros pattern, counters
zeroed. -/
def reset (cfg : Config) (start_down : Bool) : State :=
  { state := start_down, pressed := false, released := false,
    hist := (if start_down then 0xFF else 0x00),
    unstable := 0, bounce_k := 0 }

/-- Constructor of the Consecutive build: calls `reset(false)`. -/
def init (cfg : Config) : State :=
  reset cfg false

/-- One tick of the Consecutive build: clear the flags, shift the
sample in, then require `consec_n` identical samples at the LSB end. -/
def update (cfg : Config) (raw_down : Bool) (s : State) : State :=
  let hist := updateHist s.hist raw_down
  let m := mask cfg.consec_n
  if s.state = false ∧ hist &&& m = m then
    { s with state := true, pressed := true, released := false, hist := hist }
  else if s.state = true ∧ hist &&& m = 0 then
    { s with state := false, pressed := false, released := true, hist := hist }
  else
    { s with pressed := false, released := false, hist := hist }

/-- History accessor of the Consecutive build: the raw register. -/
def history (s : State) : Nat := s.hist

/-- Debounced level accessor `down()`. -/
def down (s : State) : Bool := s.state

/-- Debounced level accessor `up()`. -/
def up (s : State) : Bool := !s.state

end Consecutive

namespace EdgeGated

/-- Facade state of the EdgeGated build: shared fields plus `hist`,
`unstable` (confirmed-chatter duration) and `bounce_k` (raw-chatter
run length). -/
structure State where
  state : Bool
  pressed : Bool
  released : Bool
  hist : Nat
  unstable : Nat
  bounce_k : Nat
deriving DecidableEq, Repr

/-- Reset of the EdgeGated build: identical to the Consecutive one. -/
def reset (cfg : Config) (start_down : Bool) : State :=
  { state := start_down, pressed := false, released := false,
    hist := (if start_down then 0xFF else 0x00),
    unstable := 0, bounce_k := 0 }

/-- Constructor of the EdgeGated build: calls `reset(false)`. -/
def init (cfg : Config) : State :=
  reset cfg false

/-- Value of `bounce_k` right after its update step inside
`ButtonDebounce::update`: incremented (saturating at 255) when the
edge count of the shifted history reaches `edge_threshold`, reset to 0
otherwise. -/
def bounceKNext (cfg : Config) (raw_down : Bool) (s : State) : Nat :=
  if cfg.edge_threshold ≤ edgeCount8 (updateHist s.hist raw_down) then
    (if s.bounce_k < 255 then s.bounce_k + 1 else s.bounce_k)
  else 0

/-- Value of `unstable` right after its update step: incremented
(saturating at 255) while chatter is confirmed (`bounce_k` at or above
`bounce_confirm`), reset to 0 otherwise. -/
def unstableNext (cfg : Config) (raw_down : Bool) (s : State) : Nat :=
  if cfg.bounce_confirm ≤ bounceKNext cfg raw_down s then
    (if s.unstable < 255 then s.unstable + 1 else s.unstable)
  else 0

/-- One tick of the EdgeGated build: shift the sample in, update the
chatter counters, take the timeout recenter escape when `unstable`
reaches `unstable_timeout`, otherwise apply the Consecutive acceptance
rule only when not bouncing (the source guards the acceptance block
with `if (!bouncing)`; here the bouncing case is the explicit middle
branch, which changes nothing). -/
def update (cfg : Config) (raw_down : Bool) (s : State) : State :=
  let hist := updateHist s.hist raw_down
  let bounce_k := bounceKNext cfg raw_down s
  let unstable := unstableNext cfg raw_down s
  if cfg.unstable_timeout ≤ unstable then
    { s with
      pressed := false, released := false,
      hist := (if s.state then 0xFF else 0x00), unstable := 0, bounce_k := 0 }
  else if cfg.bounce_confirm ≤ bounce_k then
    { s with
      pressed := false, released := false,
      hist := hist, unstable := unstable, bounce_k := bounce_k }
  else
    let m := mask cfg.consec_n
    if s.state = false ∧ hist &&& m = m then
      { s with
        state := true, pressed := true, released := false,
        hist := hist, unstable := unstable, bounce_k := bounce_k }
    else if s.state = true ∧ hist &&& m = 0 then
      { s with
        state := false, pressed := false, released := true,
        hist := hist, unstable := unstable, bounce_k := bounce_k }
    else
      { s with
        pressed := false, released := false,
        hist := hist, unstable := unstable, bounce_k := bounce_k }

/-- History accessor of the EdgeGated build: the raw register. -/
def history (s : State) : Nat := s.hist

/-- Debounced level accessor `down()`. -/
def down (s : State) : Bool := s.state

/-- Debounced level accessor `up()`. -/
def up (s : State) : Bool := !s.state

end EdgeGated

/-- One public mutating call on the facade: `update(raw_down)` or
`reset(start_down)`. -/
inductive Op where
  | upd : Bool → Op
  | rst : Bool → Op
deriving DecidableEq, Repr

/-- Apply one public call to the Integrator build. -/
def Integrator.step (cfg : Config) (s : Integrator.State) : Op → Integrator.State
  | Op.upd b => Integrator.update cfg b s
  | Op.rst b => Integrator.reset cfg b

/-- Run a sequence of public calls on a freshly constructed Integrator
debouncer. -/
def Integrator.run (cfg : Config) (l : List Op) : Integrator.State :=
  l.foldl (Integrator.step cfg) (Integrator.init cfg)

/-- Apply one public call to the Consecutive build. -/
def Consecutive.step (cfg : Config) (s : Consecutive.State) : Op → Consecutive.State
  | Op.upd b => Consecutive.update cfg b s
  | Op.rst b => Consecutive.reset cfg b

/-- Run a sequence of public calls on a freshly constructed Consecutive
debouncer. -/
def Consecutive.run (cfg : Config) (l : List Op) : Consecutive.State :=
  l.foldl (Consecutive.step cfg) (Consecutive.init cfg)

/-- Apply one public call to the EdgeGated build. -/
def EdgeGated.step (cfg : Config) (s : EdgeGated.State) : Op → EdgeGated.State
  | Op.upd b => EdgeGated.update cfg b s
  | Op.rst b => EdgeGated.reset cfg b

/-- Run a sequence of public calls on a freshly constructed EdgeGated
debouncer. -/
def EdgeGated.run (cfg : Config) (l : List Op) : EdgeGated.State :=
  l.foldl (EdgeGated.step cfg) (EdgeGated.init cfg)

/-- Feed a list of raw samples to the Integrator build, one `update`
per element. -/
def Integrator.feed (cfg : Config) (l : List Bool) (s : Integrator.State) : Integrator.State :=
  l.foldl (fun t b => Integrator.update cfg b t) s

/-- Feed `k` consecutive `true` raw samples to the Consecutive build. -/
def Consecutive.feedTrues (cfg : Config) : Nat → Consecutive.State → Consecutive.State
  | 0, s => s
  | k + 1, s => Consecutive.update cfg true (Consecutive.feedTrues cfg k s)

/-- Along an input trace of the EdgeGated build: every tick whose
post-increment `bounce_k` reaches `bounce_confirm` (chatter confirmed)
leaves the debounced level unchanged and fires neither one-shot flag. -/
def EdgeGated.gatedRun (cfg : Config) : EdgeGated.State → List Bool → Prop
  | _, [] => True
  | s, b :: rest =>
    (cfg.bounce_confirm ≤ EdgeGated.bounceKNext cfg b s →
      (EdgeGated.update cfg b s).state = s.state ∧
      (EdgeGated.update cfg b s).pressed = false ∧
      (EdgeGated.update cfg b s).released = false) ∧
    EdgeGated.gatedRun cfg (EdgeGated.update cfg b s) rest

/-- Configuration of the specification's Integrator scenario:
`integ_max = 6`, `integ_on = 4`, `integ_off = 2`. -/
def cfgHyst : Config := { integ_max := 6, integ_on := 4, integ_off := 2 }

/-- Configuration used to exhibit the timeout escape concretely: a zero
edge threshold makes every tick count as chatter and a timeout of one
tick fires the escape immediately. -/
def cfgTimeout : Config := { edge_threshold := 0, unstable_timeout := 1 }

/-- Degenerate configuration with a zero acceptance run length. -/
def cfgZeroN : Config := { consec_n := 0 }

/-- The header's default configuration. -/
def cfgDefault : Config := {}

/-- Released pre-state with history 0b011: the newest two samples are
pressed, the acceptance test for a 3-bit mask is not yet satisfied. -/
def sEarly : Consecutive.State :=
  { state := false, pressed := false, released := false,
    hist := 3, unstable := 0, bounce_k := 0 }

/-! Basic arithmetic facts about the bit-level helpers. -/

/-- Oring a doubled number with 1 sets exactly bit 0. -/
theorem two_mul_or_one (h : Nat) : 2 * h ||| 1 = 2 * h + 1 := by
  apply Nat.eq_of_testBit_eq
  intro i
  cases i with
  | zero =>
    simp only [Nat.testBit_or, Nat.testBit_zero]
    have h1 : (2 * h + 1) % 2 = 1 := by omega
    have h2 : (1 : Nat) % 2 = 1 := by norm_num
    simp [h1, h2]
  | succ i =>
    have e1 : (2 * h + 1) / 2 = h := by omega
    have e2 : 2 * h / 2 = h := by omega
    have e3 : (1 : Nat) / 2 = 0 := by norm_num
    rw [Nat.testBit_or]
    simp [Nat.testBit_add_one, e1, e2, e3]

/-- Closed form of the shift-register update on a true sample. -/
theorem updateHist_true (h : Nat) : updateHist h true = (2 * h + 1) % 256 := by
  unfold updateHist
  rw [if_pos rfl, Nat.shiftLeft_eq, pow_one, Nat.mul_comm, two_mul_or_one]

/-- Closed form of the shift-register update on a false sample. -/
theorem updateHist_false (h : Nat) : updateHist h false = (2 * h) % 256 := by
  unfold updateHist
  simp [Nat.shiftLeft_eq, Nat.mul_comm]

/-- A true sample leaves bit 0 of the register set. -/
theorem updateHist_true_mod_two (h : Nat) : updateHist h true % 2 = 1 := by
  rw [updateHist_true, Nat.mod_mod_of_dvd _ (by norm_num)]
  omega

/-- A false sample leaves bit 0 of the register clear. -/
theorem updateHist_false_mod_two (h : Nat) : updateHist h false % 2 = 0 := by
  rw [updateHist_false, Nat.mod_mod_of_dvd _ (by norm_num)]
  omega

/-- In the in-range case the acceptance mask is the n low bits. -/
theorem mask_eq_two_pow_sub_one {n : Nat} (h8 : n ≤ 8) : mask n = 2 ^ n - 1 := by
  unfold mask
  split
  · next hge =>
    have hn : n = 8 := Nat.le_antisymm h8 hge
    subst hn
    rfl
  · rw [Nat.shiftLeft_eq, Nat.one_mul]

/-- With at least one sample required, the acceptance mask is odd. -/
theorem mask_mod_two {n : Nat} (h1 : 1 ≤ n) : mask n % 2 = 1 := by
  unfold mask
  split
  · norm_num
  · rw [Nat.shiftLeft_eq, Nat.one_mul]
    have hdvd : (2 : Nat) ∣ 2 ^ n := dvd_pow_self 2 (by omega : n ≠ 0)
    have hpos : 1 ≤ 2 ^ n := Nat.one_le_two_pow
    omega

/-- An odd history never satisfies the all-released test (some low bit
is a pressed sample). -/
theorem odd_and_mask_ne_zero {h n : Nat} (h1 : 1 ≤ n) (hodd : h % 2 = 1) :
    h &&& mask n ≠ 0 := by
  have hm : (h &&& mask n) % 2 = 1 :=
    Nat.and_mod_two_eq_one.mpr ⟨hodd, mask_mod_two h1⟩
  omega

/-- An even history never satisfies the all-pressed test (the newest
sample is a released one). -/
theorem even_and_mask_ne_mask {h n : Nat} (h1 : 1 ≤ n) (heven : h % 2 = 0) :
    h &&& mask n ≠ mask n := by
  intro he
  have hm : (h &&& mask n) % 2 = 1 := by
    rw [he]
    exact mask_mod_two h1
  rw [Nat.and_mod_two_eq_one] at hm
  omega

/-! The claims. -/

/-- C6: for the Integrator engine with `integ_max=6, integ_on=4,
integ_off=2`, starting from `reset(false)`, feeding 4 consecutive true
samples fires `pressed()` exactly on the 4th update (not on the 1st,
2nd or 3rd) and leaves the level down; then feeding 2 consecutive
false samples fires `released()` exactly on the 2nd (not on the 1st)
and leaves the level up. -/
theorem claim_C6 :
    (Integrator.feed cfgHyst [true] (Integrator.reset cfgHyst false)).pressed = false ∧
    (Integrator.feed cfgHyst [true, true] (Integrator.reset cfgHyst false)).pressed = false ∧
    (Integrator.feed cfgHyst [true, true, true] (Integrator.reset cfgHyst false)).pressed = false ∧
    (Integrator.feed cfgHyst [true, true, true, true] (Integrator.reset cfgHyst false)).pressed = true ∧
    Integrator.down (Integrator.feed cfgHyst [true, true, true, true] (Integrator.reset cfgHyst false)) = true ∧
    (Integrator.feed cfgHyst [true, true, true, true, false] (Integrator.reset cfgHyst false)).released = false ∧
    (Integrator.feed cfgHyst [true, true, true, true, false, false] (Integrator.reset cfgHyst false)).released = true ∧
    Integrator.down (Integrator.feed cfgHyst [true, true, true, true, false, false] (Integrator.reset cfgHyst false)) = false := by
  decide

/-- C10: for every configuration and every engine, a freshly
constructed debouncer (the constructor invokes `reset(false)`) starts
released: `down()` is false, `up()` is true, both one-shot flags are
false, and `history()` is 0. -/
theorem claim_C10 (cfg : Config) :
    Integrator.down (Integrator.init cfg) = false ∧
    Integrator.up (Integrator.init cfg) = true ∧
    (Integrator.init cfg).pressed = false ∧
    (Integrator.init cfg).released = false ∧
    Integrator.history (Integrator.init cfg) = 0 ∧
    Consecutive.down (Consecutive.init cfg) = false ∧
    Consecutive.up (Consecutive.init cfg) = true ∧
    (Consecutive.init cfg).pressed = false ∧
    (Consecutive.init cfg).released = false ∧
    Consecutive.history (Consecutive.init cfg) = 0 ∧
    EdgeGated.down (EdgeGated.init cfg) = false ∧
    EdgeGated.up (EdgeGated.init cfg) = true ∧
    (EdgeGated.init cfg).pressed = false ∧
    (EdgeGated.init cfg).released = false ∧
    EdgeGated.history (EdgeGated.init cfg) = 0 := by
  exact ⟨rfl, rfl, rfl, rfl, rfl, rfl, rfl, rfl, rfl, rfl, rfl, rfl, rfl, rfl, rfl⟩

/-- C1: for the EdgeGated engine, whenever the unstable counter (after
its increment-or-reset step this tick) reaches `unstable_timeout`, the
tick takes the timeout escape: `hist` is forced to `0xFF` when the
debounced state is pressed and to `0x00` when released, `unstable` and
`bounce_k` are zeroed, and the function returns without evaluating the
acceptance rule, so the debounced state is unchanged and both one-shot
flags are false. -/
theorem claim_C1 (cfg : Config) (raw : Bool) (s : EdgeGated.State)
    (h : cfg.unstable_timeout ≤ EdgeGated.unstableNext cfg raw s) :
    (EdgeGated.update cfg raw s).hist = (if s.state then 0xFF else 0x00) ∧
    (EdgeGated.update cfg raw s).unstable = 0 ∧
    (EdgeGated.update cfg raw s).bounce_k = 0 ∧
    (EdgeGated.update cfg raw s).state = s.state ∧
    (EdgeGated.update cfg raw s).pressed = false ∧
    (EdgeGated.update cfg raw s).released = false := by
  simp only [EdgeGated.update]
  rw [if_pos h]
  exact ⟨rfl, rfl, rfl, rfl, rfl, rfl⟩

/-- Witness for C1: from a freshly reset EdgeGated debouncer under
`cfgTimeout`, the very first update takes the timeout escape. -/
theorem claim_C1_witness :
    (EdgeGated.update cfgTimeout true (EdgeGated.reset cfgTimeout false)).hist
      = (if (EdgeGated.reset cfgTimeout false).state then 0xFF else 0x00) ∧
    (EdgeGated.update cfgTimeout true (EdgeGated.reset cfgTimeout false)).unstable = 0 ∧
    (EdgeGated.update cfgTimeout true (EdgeGated.reset cfgTimeout false)).bounce_k = 0 ∧
    (EdgeGated.update cfgTimeout true (EdgeGated.reset cfgTimeout false)).state
      = (EdgeGated.reset cfgTimeout false).state ∧
    (EdgeGated.update cfgTimeout true (EdgeGated.reset cfgTimeout false)).pressed = false ∧
    (EdgeGated.update cfgTimeout true (EdgeGated.reset cfgTimeout false)).released = false :=
  claim_C1 cfgTimeout true (EdgeGated.reset cfgTimeout false) (by decide)

/-- C2: for the EdgeGated engine, along any input trace, every tick on
which chatter is confirmed (the post-increment `bounce_k` reaches
`bounce_confirm`) fires neither one-shot flag and leaves the debounced
level unchanged; in particular an alternating true/false input
sequence of any length never produces a transition on a
chatter-confirmed tick, since the property holds for every sequence. -/
theorem claim_C2 (cfg : Config) (s : EdgeGated.State) (l : List Bool) :
    EdgeGated.gatedRun cfg s l := by
  induction l generalizing s with
  | nil => trivial
  | cons b rest ih =>
    refine ⟨?_, ih _⟩
    intro hb
    simp only [EdgeGated.update]
    split
    · exact ⟨rfl, rfl, rfl⟩
    · exact ⟨rfl, rfl, rfl⟩

/-- One-shot flags of an Integrator tick record exactly the edges of
the debounced level. -/
theorem integrator_flags (cfg : Config) (raw : Bool) (s : Integrator.State) :
    (Integrator.update cfg raw s).pressed
      = (!s.state && (Integrator.update cfg raw s).state) ∧
    (Integrator.update cfg raw s).released
      = (s.state && !(Integrator.update cfg raw s).state) := by
  simp only [Integrator.update]
  repeat' split
  all_goals simp_all [Bool.and_not_self, Bool.not_and_self]

/-- One-shot flags of a Consecutive tick record exactly the edges of
the debounced level. -/
theorem consecutive_flags (cfg : Config) (raw : Bool) (s : Consecutive.State) :
    (Consecutive.update cfg raw s).pressed
      = (!s.state && (Consecutive.update cfg raw s).state) ∧
    (Consecutive.update cfg raw s).released
      = (s.state && !(Consecutive.update cfg raw s).state) := by
  simp only [Consecutive.update]
  repeat' split
  all_goals simp_all [Bool.and_not_self, Bool.not_and_self]

/-- One-shot flags of an EdgeGated tick record exactly the edges of
the debounced level. -/
theorem edgegated_flags (cfg : Config) (raw : Bool) (s : EdgeGated.State) :
    (EdgeGated.update cfg raw s).pressed
      = (!s.state && (EdgeGated.update cfg raw s).state) ∧
    (EdgeGated.update cfg raw s).released
      = (s.state && !(EdgeGated.update cfg raw s).state) := by
  simp only [EdgeGated.update]
  repeat' split
  all_goals simp_all [Bool.and_not_self, Bool.not_and_self]

/-- C4: for every engine, pre-state and raw sample, the `pressed` flag
after an update equals "the level was up before and is down after",
and the `released` flag equals "the level was down before and is up
after": each one-shot flag is true exactly on the tick in which the
corresponding transition of the debounced level occurs. -/
theorem claim_C4 (cfg : Config) (raw : Bool) :
    (∀ s : Integrator.State,
      (Integrator.update cfg raw s).pressed
        = (!s.state && (Integrator.update cfg raw s).state) ∧
      (Integrator.update cfg raw s).released
        = (s.state && !(Integrator.update cfg raw s).state)) ∧
    (∀ s : Consecutive.State,
      (Consecutive.update cfg raw s).pressed
        = (!s.state && (Consecutive.update cfg raw s).state) ∧
      (Consecutive.update cfg raw s).released
        = (s.state && !(Consecutive.update cfg raw s).state)) ∧
    (∀ s : EdgeGated.State,
      (EdgeGated.update cfg raw s).pressed
        = (!s.state && (EdgeGated.update cfg raw s).state) ∧
      (EdgeGated.update cfg raw s).released
        = (s.state && !(EdgeGated.update cfg raw s).state)) :=
  ⟨fun s => integrator_flags cfg raw s,
   fun s => consecutive_flags cfg raw s,
   fun s => edgegated_flags cfg raw s⟩

/-- Every Integrator public call leaves at most one one-shot flag. -/
theorem integrator_step_flags (cfg : Config) (s : Integrator.State) (o : Op) :
    ((Integrator.step cfg s o).pressed && (Integrator.step cfg s o).released) = false := by
  cases o with
  | upd b =>
    simp only [Integrator.step, Integrator.update]
    repeat' split
    all_goals rfl
  | rst b => rfl

/-- Every Consecutive public call leaves at most one one-shot flag. -/
theorem consecutive_step_flags (cfg : Config) (s : Consecutive.State) (o : Op) :
    ((Consecutive.step cfg s o).pressed && (Consecutive.step cfg s o).released) = false := by
  cases o with
  | upd b =>
    simp only [Consecutive.step, Consecutive.update]
    repeat' split
    all_goals rfl
  | rst b => rfl

/-- Every EdgeGated public call leaves at most one one-shot flag. -/
theorem edgegated_step_flags (cfg : Config) (s : EdgeGated.State) (o : Op) :
    ((EdgeGated.step cfg s o).pressed && (EdgeGated.step cfg s o).released) = false := by
  cases o with
  | upd b =>
    simp only [EdgeGated.step, EdgeGated.update]
    repeat' split
    all_goals rfl
  | rst b => rfl

/-- The at-most-one-flag property propagates along any Integrator op
sequence. -/
theorem integrator_fold_flags (cfg : Config) (l : List Op) :
    ∀ s : Integrator.State, (s.pressed && s.released) = false →
      ((l.foldl (Integrator.step cfg) s).pressed &&
       (l.foldl (Integrator.step cfg) s).released) = false := by
  induction l with
  | nil => intro s h; simpa using h
  | cons o rest ih =>
    intro s _
    simp only [List.foldl_cons]
    exact ih _ (integrator_step_flags cfg s o)

/-- The at-most-one-flag property propagates along any Consecutive op
sequence. -/
theorem consecutive_fold_flags (cfg : Config) (l : List Op) :
    ∀ s : Consecutive.State, (s.pressed && s.released) = false →
      ((l.foldl (Consecutive.step cfg) s).pressed &&
       (l.foldl (Consecutive.step cfg) s).released) = false := by
  induction l with
  | nil => intro s h; simpa using h
  | cons o rest ih =>
    intro s _
    simp only [List.foldl_cons]
    exact ih _ (consecutive_step_flags cfg s o)

/-- The at-most-one-flag property propagates along any EdgeGated op
sequence. -/
theorem edgegated_fold_flags (cfg : Config) (l : List Op) :
    ∀ s : EdgeGated.State, (s.pressed && s.released) = false →
      ((l.foldl (EdgeGated.step cfg) s).pressed &&
       (l.foldl (EdgeGated.step cfg) s).released) = false := by
  induction l with
  | nil => intro s h; simpa using h
  | cons o rest ih =>
    intro s _
    simp only [List.foldl_cons]
    exact ih _ (edgegated_step_flags cfg s o)

/-- C5: for every engine, every configuration and every sequence of
public `update` and `reset` calls on a freshly constructed debouncer,
the one-shot flags `pressed()` and `released()` are never both true. -/
theorem claim_C5 (cfg : Config) (l : List Op) :
    ((Integrator.run cfg l).pressed && (Integrator.run cfg l).released) = false ∧
    ((Consecutive.run cfg l).pressed && (Consecutive.run cfg l).released) = false ∧
    ((EdgeGated.run cfg l).pressed && (EdgeGated.run cfg l).released) = false :=
  ⟨integrator_fold_flags cfg l (Integrator.init cfg) rfl,
   consecutive_fold_flags cfg l (Consecutive.init cfg) rfl,
   edgegated_fold_flags cfg l (EdgeGated.init cfg) rfl⟩

/-- Value of the Integrator accumulator after one tick, as the source
computes it. -/
theorem integrator_update_acc (cfg : Config) (raw : Bool) (s : Integrator.State) :
    (Integrator.update cfg raw s).acc
      = (if raw then (if s.acc < cfg.integ_max then s.acc + 1 else s.acc)
         else (if 0 < s.acc then s.acc - 1 else s.acc)) := by
  simp only [Integrator.update]
  repeat' split
  all_goals rfl

/-- The post-increment chatter-run counter stays within a byte. -/
theorem bounceKNext_le (cfg : Config) (raw : Bool) (s : EdgeGated.State)
    (h : s.bounce_k ≤ 255) : EdgeGated.bounceKNext cfg raw s ≤ 255 := by
  unfold EdgeGated.bounceKNext
  split
  · split <;> omega
  · omega

/-- The post-increment unstable counter stays within a byte. -/
theorem unstableNext_le (cfg : Config) (raw : Bool) (s : EdgeGated.State)
    (h : s.unstable ≤ 255) : EdgeGated.unstableNext cfg raw s ≤ 255 := by
  unfold EdgeGated.unstableNext
  split
  · split <;> omega
  · omega

/-- The unstable counter after an EdgeGated tick is either zeroed or
the guarded post-increment value. -/
theorem edgegated_update_unstable (cfg : Config) (raw : Bool) (s : EdgeGated.State) :
    (EdgeGated.update cfg raw s).unstable = 0 ∨
    (EdgeGated.update cfg raw s).unstable = EdgeGated.unstableNext cfg raw s := by
  simp only [EdgeGated.update]
  repeat' split
  all_goals first
  | exact Or.inl rfl
  | exact Or.inr rfl

/-- The chatter-run counter after an EdgeGated tick is either zeroed or
the guarded post-increment value. -/
theorem edgegated_update_bounce_k (cfg : Config) (raw : Bool) (s : EdgeGated.State) :
    (EdgeGated.update cfg raw s).bounce_k = 0 ∨
    (EdgeGated.update cfg raw s).bounce_k = EdgeGated.bounceKNext cfg raw s := by
  simp only [EdgeGated.update]
  repeat' split
  all_goals first
  | exact Or.inl rfl
  | exact Or.inr rfl

/-- C9: the counters saturate and never wrap: the Integrator
accumulator is within `[0, integ_max]` after a reset and every update
preserves that range (the increment is guarded by `acc < integ_max`,
the decrement by `acc > 0`, and in this `Nat` model the lower bound is
inherent); the EdgeGated `unstable` and `bounce_k` counters are zeroed
by reset and kept at or below 255 by every update because their
increments are guarded by `< 255`. -/
theorem claim_C9 (cfg : Config) (b : Bool) (si : Integrator.State) (se : EdgeGated.State) :
    (Integrator.reset cfg b).acc ≤ cfg.integ_max ∧
    (si.acc ≤ cfg.integ_max → (Integrator.update cfg b si).acc ≤ cfg.integ_max) ∧
    (EdgeGated.reset cfg b).unstable = 0 ∧
    (EdgeGated.reset cfg b).bounce_k = 0 ∧
    (se.unstable ≤ 255 → (EdgeGated.update cfg b se).unstable ≤ 255) ∧
    (se.bounce_k ≤ 255 → (EdgeGated.update cfg b se).bounce_k ≤ 255) := by
  refine ⟨?_, ?_, rfl, rfl, ?_, ?_⟩
  · simp only [Integrator.reset]
    split <;> omega
  · intro h
    rw [integrator_update_acc]
    repeat' split
    all_goals omega
  · intro h
    rcases edgegated_update_unstable cfg b se with he | he <;> rw [he]
    · omega
    · exact unstableNext_le cfg b se h
  · intro h
    rcases edgegated_update_bounce_k cfg b se with he | he <;> rw [he]
    · omega
    · exact bounceKNext_le cfg b se h

/-- C8: with `consec_n = 0` the acceptance mask is 0, so both the
all-pressed and the all-released test hold on every tick, and the
Consecutive engine transitions on every single update regardless of
the raw sample: `pressed` fires whenever the level was up, `released`
whenever it was down (always-transition degenerate mode); the update
function is total, so no error or undefined behavior arises. -/
theorem claim_C8 (cfg : Config) (hn : cfg.consec_n = 0) (raw : Bool) (s : Consecutive.State) :
    (Consecutive.update cfg raw s).state = !s.state ∧
    (Consecutive.update cfg raw s).pressed = !s.state ∧
    (Consecutive.update cfg raw s).released = s.state := by
  have hm : mask cfg.consec_n = 0 := by rw [hn]; rfl
  simp only [Consecutive.update, hm, Nat.and_zero]
  cases hs : s.state <;> simp [hs]

/-- Witness for C8: under `cfgZeroN`, the very first update of a
freshly reset debouncer already fires a transition. -/
theorem claim_C8_witness :
    (Consecutive.update cfgZeroN true (Consecutive.reset cfgZeroN false)).state
      = !(Consecutive.reset cfgZeroN false).state ∧
    (Consecutive.update cfgZeroN true (Consecutive.reset cfgZeroN false)).pressed
      = !(Consecutive.reset cfgZeroN false).state ∧
    (Consecutive.update cfgZeroN true (Consecutive.reset cfgZeroN false)).released
      = (Consecutive.reset cfgZeroN false).state :=
  claim_C8 cfgZeroN rfl true (Consecutive.reset cfgZeroN false)

/-- Counterexample to C7 as stated: the claim quantifies over every
configuration, but with `consec_n = 0` the Consecutive engine's
`reset(true)` followed by `update(true)` fires `released` and leaves
the level up rather than down. -/
theorem claim_C7_cex :
    Consecutive.down (Consecutive.update cfgZeroN true (Consecutive.reset cfgZeroN true)) = false ∧
    (Consecutive.update cfgZeroN true (Consecutive.reset cfgZeroN true)).released = true := by
  decide

/-- An Integrator at the pressed rail stays settled on a true sample,
provided the release threshold lies strictly below the ceiling. -/
theorem integrator_settled (cfg : Config) (hoff : cfg.integ_off < cfg.integ_max) :
    Integrator.update cfg true (Integrator.reset cfg true)
      = { state := true, pressed := false, released := false, acc := cfg.integ_max } := by
  have h1 : ¬(cfg.integ_max ≤ cfg.integ_off) := by omega
  simp [Integrator.update, Integrator.reset, h1]

/-- A Consecutive engine with all-ones history stays settled on a true
sample when at least one sample is required. -/
theorem consecutive_settled (cfg : Config) (hn : 1 ≤ cfg.consec_n) :
    Consecutive.update cfg true (Consecutive.reset cfg true)
      = { state := true, pressed := false, released := false,
          hist := 255, unstable := 0, bounce_k := 0 } := by
  have hh : updateHist 255 true = 255 := by decide
  have hz : (255 : Nat) &&& mask cfg.consec_n ≠ 0 :=
    odd_and_mask_ne_zero hn (by norm_num)
  simp [Consecutive.update, Consecutive.reset, hh, hz]

/-- An EdgeGated engine with all-ones history keeps the level down and
fires no flag on a true sample when at least one sample is required
(whichever of the timeout, gated or acceptance branches runs). -/
theorem edgegated_settled (cfg : Config) (hn : 1 ≤ cfg.consec_n) :
    (EdgeGated.update cfg true (EdgeGated.reset cfg true)).state = true ∧
    (EdgeGated.update cfg true (EdgeGated.reset cfg true)).pressed = false ∧
    (EdgeGated.update cfg true (EdgeGated.reset cfg true)).released = false := by
  have hh : updateHist 255 true = 255 := by decide
  have hz : (255 : Nat) &&& mask cfg.consec_n ≠ 0 :=
    odd_and_mask_ne_zero hn (by norm_num)
  simp only [EdgeGated.update, EdgeGated.reset]
  repeat' split
  all_goals simp_all

/-- C7 (amended): for every configuration satisfying the documented
constraints `integ_off < integ_max` (Integrator) and `consec_n ≥ 1`
(history engines), `reset(true)` followed immediately by a single
`update(true)` leaves `down()` true with both one-shot flags false on
every engine; the unamended claim over all configurations fails on the
degenerate `consec_n = 0` mode (see the counterexample). -/
theorem claim_C7 (cfg : Config) (hoff : cfg.integ_off < cfg.integ_max)
    (hn : 1 ≤ cfg.consec_n) :
    Integrator.down (Integrator.update cfg true (Integrator.reset cfg true)) = true ∧
    (Integrator.update cfg true (Integrator.reset cfg true)).pressed = false ∧
    (Integrator.update cfg true (Integrator.reset cfg true)).released = false ∧
    Consecutive.down (Consecutive.update cfg true (Consecutive.reset cfg true)) = true ∧
    (Consecutive.update cfg true (Consecutive.reset cfg true)).pressed = false ∧
    (Consecutive.update cfg true (Consecutive.reset cfg true)).released = false ∧
    EdgeGated.down (EdgeGated.update cfg true (EdgeGated.reset cfg true)) = true ∧
    (EdgeGated.update cfg true (EdgeGated.reset cfg true)).pressed = false ∧
    (EdgeGated.update cfg true (EdgeGated.reset cfg true)).released = false := by
  have hi := integrator_settled cfg hoff
  have hc := consecutive_settled cfg hn
  have he := edgegated_settled cfg hn
  refine ⟨?_, ?_, ?_, ?_, ?_, ?_, he.1, he.2.1, he.2.2⟩
  · rw [Integrator.down, hi]
  · rw [hi]
  · rw [hi]
  · rw [Consecutive.down, hc]
  · rw [hc]
  · rw [hc]

/-- Witness for C7: the header's default configuration satisfies both
side conditions, and the round trip is settled on all three engines. -/
theorem claim_C7_witness :
    Integrator.down (Integrator.update cfgDefault true (Integrator.reset cfgDefault true)) = true ∧
    (Integrator.update cfgDefault true (Integrator.reset cfgDefault true)).pressed = false ∧
    (Integrator.update cfgDefault true (Integrator.reset cfgDefault true)).released = false ∧
    Consecutive.down (Consecutive.update cfgDefault true (Consecutive.reset cfgDefault true)) = true ∧
    (Consecutive.update cfgDefault true (Consecutive.reset cfgDefault true)).pressed = false ∧
    (Consecutive.update cfgDefault true (Consecutive.reset cfgDefault true)).released = false ∧
    EdgeGated.down (EdgeGated.update cfgDefault true (EdgeGated.reset cfgDefault true)) = true ∧
    (EdgeGated.update cfgDefault true (EdgeGated.reset cfgDefault true)).pressed = false ∧
    (EdgeGated.update cfgDefault true (EdgeGated.reset cfgDefault true)).released = false :=
  claim_C7 cfgDefault (by decide) (by decide)

/-- History field after one Consecutive tick, whatever branch runs. -/
theorem consecutive_update_hist (cfg : Config) (raw : Bool) (s : Consecutive.State) :
    (Consecutive.update cfg raw s).hist = updateHist s.hist raw := by
  simp only [Consecutive.update]
  repeat' split
  all_goals rfl

/-- Closed form of the history register after feeding `k + 1`
consecutive true samples. -/
theorem feedTrues_hist (cfg : Config) :
    ∀ (k : Nat) (s : Consecutive.State),
      (Consecutive.feedTrues cfg (k + 1) s).hist
        = (2 ^ (k + 1) * s.hist + (2 ^ (k + 1) - 1)) % 256 := by
  intro k
  induction k with
  | zero =>
    intro s
    simp only [Consecutive.feedTrues]
    rw [consecutive_update_hist, updateHist_true]
    norm_num
  | succ k ih =>
    intro s
    have hstep : Consecutive.feedTrues cfg (k + 1 + 1) s
        = Consecutive.update cfg true (Consecutive.feedTrues cfg (k + 1) s) := rfl
    rw [hstep, consecutive_update_hist, updateHist_true, ih s]
    have hp1 : 1 ≤ (2 : Nat) ^ (k + 1) := Nat.one_le_two_pow
    have hp : (2 : Nat) ^ (k + 1 + 1) = 2 * 2 ^ (k + 1) := by ring
    rw [hp, Nat.mul_assoc]
    clear hstep ih hp
    generalize (2 : Nat) ^ (k + 1) * s.hist = q
    generalize hP : (2 : Nat) ^ (k + 1) = P at hp1
    omega

/-- Core counting bound: fewer than `n` true samples shifted into a
history whose newest bit was clear cannot fill the n-bit acceptance
window. -/
theorem hist_early_ne (n j h : Nat) (hn8 : n ≤ 8) (hj1 : 1 ≤ j) (hjn : j < n)
    (he : h % 2 = 0) :
    ((2 ^ j * h + (2 ^ j - 1)) % 256) &&& mask n ≠ mask n := by
  rw [mask_eq_two_pow_sub_one hn8, Nat.and_pow_two_sub_one_eq_mod]
  have hd : (2 : Nat) ^ n ∣ 256 := by
    have h256 : (256 : Nat) = 2 ^ 8 := by norm_num
    rw [h256]
    exact Nat.pow_dvd_pow 2 hn8
  rw [Nat.mod_mod_of_dvd _ hd]
  have hPn : (2 : Nat) ^ n = 2 ^ j * 2 ^ (n - j) := by
    rw [← pow_add]
    congr 1
    omega
  have hP1 : 1 ≤ (2 : Nat) ^ j := Nat.one_le_two_pow
  have hM1 : 1 ≤ (2 : Nat) ^ (n - j) := Nat.one_le_two_pow
  have hq : h % 2 ^ (n - j) < 2 ^ (n - j) := Nat.mod_lt _ (by omega)
  have key : (2 ^ j * h + (2 ^ j - 1)) % 2 ^ n
      = 2 ^ j * (h % 2 ^ (n - j)) + (2 ^ j - 1) := by
    have hb : (2 : Nat) ^ j - 1 < 2 ^ j * 2 ^ (n - j) := by
      calc (2 : Nat) ^ j - 1 < 2 ^ j := by omega
        _ ≤ 2 ^ j * 2 ^ (n - j) := Nat.le_mul_of_pos_right _ (by omega)
    have hlt : 2 ^ j * (h % 2 ^ (n - j)) + (2 ^ j - 1) < 2 ^ j * 2 ^ (n - j) := by
      calc 2 ^ j * (h % 2 ^ (n - j)) + (2 ^ j - 1)
          < 2 ^ j * (h % 2 ^ (n - j)) + 2 ^ j := by omega
        _ = 2 ^ j * (h % 2 ^ (n - j) + 1) := by ring
        _ ≤ 2 ^ j * 2 ^ (n - j) := Nat.mul_le_mul_left _ (by omega)
    rw [hPn, Nat.add_mod, Nat.mul_mod_mul_left, Nat.mod_eq_of_lt hb, Nat.mod_eq_of_lt hlt]
  rw [key, hPn]
  intro hcontra
  have e1 : 2 ^ j * (h % 2 ^ (n - j)) + 2 ^ j = 2 ^ j * 2 ^ (n - j) := by
    have hNpos : 0 < 2 ^ j * 2 ^ (n - j) := Nat.mul_pos (by omega) (by omega)
    omega
  have e2 : 2 ^ j * (h % 2 ^ (n - j) + 1) = 2 ^ j * 2 ^ (n - j) := by
    rw [Nat.mul_add, Nat.mul_one]
    exact e1
  have e3 : h % 2 ^ (n - j) + 1 = 2 ^ (n - j) :=
    Nat.eq_of_mul_eq_mul_left (by omega) e2
  have hdvd2 : (2 : Nat) ∣ 2 ^ (n - j) := dvd_pow_self 2 (by omega)
  have hpar : h % 2 = h % 2 ^ (n - j) % 2 := (Nat.mod_mod_of_dvd h hdvd2).symm
  omega

/-- Exactly `n` true samples shifted in always fill the n-bit
acceptance window. -/
theorem hist_at_n_eq (n h : Nat) (hn8 : n ≤ 8) :
    ((2 ^ n * h + (2 ^ n - 1)) % 256) &&& mask n = mask n := by
  rw [mask_eq_two_pow_sub_one hn8, Nat.and_pow_two_sub_one_eq_mod]
  have hd : (2 : Nat) ^ n ∣ 256 := by
    have h256 : (256 : Nat) = 2 ^ 8 := by norm_num
    rw [h256]
    exact Nat.pow_dvd_pow 2 hn8
  rw [Nat.mod_mod_of_dvd _ hd, Nat.add_comm, Nat.add_mul_mod_self_left]
  have h1 : 1 ≤ (2 : Nat) ^ n := Nat.one_le_two_pow
  exact Nat.mod_eq_of_lt (by omega)

/-- A Consecutive tick cannot fire pressed when the acceptance test on
the shifted history fails; from a released state the level stays up. -/
theorem consecutive_update_no_press (cfg : Config) (raw : Bool) (s : Consecutive.State)
    (hstate : s.state = false)
    (hmask : updateHist s.hist raw &&& mask cfg.consec_n ≠ mask cfg.consec_n) :
    (Consecutive.update cfg raw s).state = false ∧
    (Consecutive.update cfg raw s).pressed = false := by
  simp only [Consecutive.update]
  split
  · next hc => exact absurd hc.2 hmask
  · split
    · next hc =>
      rw [hstate] at hc
      exact absurd hc.1 (by simp)
    · exact ⟨hstate, rfl⟩

/-- A Consecutive tick fires pressed when the engine is released and
the acceptance test passes on the shifted history. -/
theorem consecutive_update_press (cfg : Config) (raw : Bool) (s : Consecutive.State)
    (hstate : s.state = false)
    (hmask : updateHist s.hist raw &&& mask cfg.consec_n = mask cfg.consec_n) :
    (Consecutive.update cfg raw s).state = true ∧
    (Consecutive.update cfg raw s).pressed = true := by
  simp only [Consecutive.update]
  rw [if_pos ⟨hstate, hmask⟩]
  exact ⟨rfl, rfl⟩

/-- From a pressed state a true sample fires nothing: the all-released
test fails on an odd history when at least one sample is required. -/
theorem consecutive_update_true_stays (cfg : Config) (hn : 1 ≤ cfg.consec_n)
    (s : Consecutive.State) (hstate : s.state = true) :
    (Consecutive.update cfg true s).state = true ∧
    (Consecutive.update cfg true s).pressed = false := by
  have hz : updateHist s.hist true &&& mask cfg.consec_n ≠ 0 :=
    odd_and_mask_ne_zero hn (updateHist_true_mod_two s.hist)
  simp only [Consecutive.update]
  split
  · next hc =>
    rw [hstate] at hc
    exact absurd hc.1 (by simp)
  · split
    · next hc => exact absurd hc.2 hz
    · exact ⟨hstate, rfl⟩

/-- A false sample fires no pressed flag and leaves the newest history
bit clear. -/
theorem consecutive_update_false_clears (cfg : Config) (hn : 1 ≤ cfg.consec_n)
    (s : Consecutive.State) :
    (Consecutive.update cfg false s).pressed = false ∧
    (Consecutive.update cfg false s).hist % 2 = 0 := by
  have hz : updateHist s.hist false &&& mask cfg.consec_n ≠ mask cfg.consec_n :=
    even_and_mask_ne_mask hn (updateHist_false_mod_two s.hist)
  constructor
  · simp only [Consecutive.update]
    split
    · next hc => exact absurd hc.2 hz
    · split
      · rfl
      · rfl
  · rw [consecutive_update_hist]
    exact updateHist_false_mod_two s.hist

/-- While fewer than `consec_n` true samples have been fed from a
released state whose newest history bit is clear, the level stays up
and pressed never fires. -/
theorem feedTrues_no_early (cfg : Config) (hn1 : 1 ≤ cfg.consec_n) (hn8 : cfg.consec_n ≤ 8)
    (u : Consecutive.State) (hu : u.state = false) (he : u.hist % 2 = 0) :
    ∀ k, k < cfg.consec_n →
      (Consecutive.feedTrues cfg k u).state = false ∧
      (1 ≤ k → (Consecutive.feedTrues cfg k u).pressed = false) := by
  intro k
  induction k with
  | zero => intro _; exact ⟨hu, fun hk => absurd hk (by omega)⟩
  | succ k ih =>
    intro hk
    obtain ⟨hstate, -⟩ := ih (by omega)
    have hmask : updateHist (Consecutive.feedTrues cfg k u).hist true &&& mask cfg.consec_n
        ≠ mask cfg.consec_n := by
      have h1 : updateHist (Consecutive.feedTrues cfg k u).hist true
          = (Consecutive.feedTrues cfg (k + 1) u).hist :=
        (consecutive_update_hist cfg true (Consecutive.feedTrues cfg k u)).symm
      rw [h1, feedTrues_hist cfg k u]
      exact hist_early_ne cfg.consec_n (k + 1) u.hist hn8 (by omega) hk he
    have h2 := consecutive_update_no_press cfg true (Consecutive.feedTrues cfg k u) hstate hmask
    exact ⟨h2.1, fun _ => h2.2⟩

/-- Once the level is down, feeding true samples never fires pressed
(the level stays down throughout). -/
theorem feedTrues_stays_true (cfg : Config) (hn : 1 ≤ cfg.consec_n)
    (u : Consecutive.State) (hu : u.state = true) :
    ∀ k, (Consecutive.feedTrues cfg k u).state = true ∧
      (1 ≤ k → (Consecutive.feedTrues cfg k u).pressed = false) := by
  intro k
  induction k with
  | zero => exact ⟨hu, fun hk => absurd hk (by omega)⟩
  | succ k ih =>
    have h2 := consecutive_update_true_stays cfg hn (Consecutive.feedTrues cfg k u) ih.1
    exact ⟨h2.1, fun _ => h2.2⟩

/-- Counterexample to C3 as stated: with the default run length 3 and
a released pre-state with history 0b011 — whose history does not
satisfy the 3-bit mask — a single true sample already fires pressed,
earlier than the 3rd. -/
theorem claim_C3_cex :
    sEarly.state = false ∧
    sEarly.hist &&& mask cfgDefault.consec_n ≠ mask cfgDefault.consec_n ∧
    cfgDefault.consec_n = 3 ∧
    (Consecutive.feedTrues cfgDefault 1 sEarly).pressed = true := by
  decide

/-- C3 (amended): for the Consecutive engine with `consec_n = n`,
`1 ≤ n ≤ 8`, starting from any released state whose newest history bit
is clear (rather than merely not satisfying the mask, which the
counterexample shows is too weak), feeding `n` consecutive true
samples yields `pressed()` true on exactly the n-th sample — false on
every earlier one — and feeding any false sample resets the run: after
a false sample, fewer than `n` subsequent true samples never fire
pressed. -/
theorem claim_C3 (cfg : Config) (s : Consecutive.State)
    (hn1 : 1 ≤ cfg.consec_n) (hn8 : cfg.consec_n ≤ 8)
    (hst : s.state = false) (hh : s.hist % 2 = 0) :
    (∀ k, 1 ≤ k → k < cfg.consec_n →
      (Consecutive.feedTrues cfg k s).pressed = false) ∧
    (Consecutive.feedTrues cfg cfg.consec_n s).pressed = true ∧
    (∀ t : Consecutive.State, ∀ k, k < cfg.consec_n →
      (Consecutive.feedTrues cfg k (Consecutive.update cfg false t)).pressed = false) := by
  refine ⟨?_, ?_, ?_⟩
  · intro k hk1 hkn
    exact (feedTrues_no_early cfg hn1 hn8 s hst hh k hkn).2 hk1
  · obtain ⟨hstate, -⟩ :=
      feedTrues_no_early cfg hn1 hn8 s hst hh (cfg.consec_n - 1) (by omega)
    have hmask : updateHist (Consecutive.feedTrues cfg (cfg.consec_n - 1) s).hist true
        &&& mask cfg.consec_n = mask cfg.consec_n := by
      have h1 : updateHist (Consecutive.feedTrues cfg (cfg.consec_n - 1) s).hist true
          = (Consecutive.feedTrues cfg (cfg.consec_n - 1 + 1) s).hist :=
        (consecutive_update_hist cfg true (Consecutive.feedTrues cfg (cfg.consec_n - 1) s)).symm
      rw [h1, feedTrues_hist cfg (cfg.consec_n - 1) s]
      have he : cfg.consec_n - 1 + 1 = cfg.consec_n := by omega
      rw [he]
      exact hist_at_n_eq cfg.consec_n s.hist hn8
    have hp := consecutive_update_press cfg true
      (Consecutive.feedTrues cfg (cfg.consec_n - 1) s) hstate hmask
    have heq : Consecutive.feedTrues cfg cfg.consec_n s
        = Consecutive.update cfg true (Consecutive.feedTrues cfg (cfg.consec_n - 1) s) := by
      have he : cfg.consec_n = cfg.consec_n - 1 + 1 := by omega
      conv_lhs => rw [he]
      rfl
    rw [heq]
    exact hp.2
  · intro t k hkn
    have hpf := consecutive_update_false_clears cfg hn1 t
    cases hsu : (Consecutive.update cfg false t).state with
    | false =>
      cases k with
      | zero => exact hpf.1
      | succ k' =>
        exact (feedTrues_no_early cfg hn1 hn8 _ hsu hpf.2 (k' + 1) hkn).2 (by omega)
    | true =>
      cases k with
      | zero => exact hpf.1
      | succ k' =>
        exact (feedTrues_stays_true cfg hn1 _ hsu (k' + 1)).2 (by omega)

/-- Witness for C3: the default configuration (`consec_n = 3`) from a
freshly reset released state. -/
theorem claim_C3_witness :
    (∀ k, 1 ≤ k → k < cfgDefault.consec_n →
      (Consecutive.feedTrues cfgDefault k (Consecutive.reset cfgDefault false)).pressed = false) ∧
    (Consecutive.feedTrues cfgDefault cfgDefault.consec_n
      (Consecutive.reset cfgDefault false)).pressed = true ∧
    (∀ t : Consecutive.State, ∀ k, k < cfgDefault.consec_n →
      (Consecutive.feedTrues cfgDefault k
        (Consecutive.update cfgDefault false t)).pressed = false) :=
  claim_C3 cfgDefault (Consecutive.reset cfgDefault false)
    (by decide) (by decide) (by decide) (by decide)

end ButtonDebounce
